import Mathlib

/-
Verification of the embed-metadata extraction and record-mapping layer of the
blog/gallery application.

The development shallowly embeds:
  - src/utils/flickrUtils.ts   (parseFlickrEmbed, isFlickrImageUrl,
                                generateFlickrEmbed, getFlickrImageSizes)
  - the BlogService record mappers mapDatabaseToApp / mapAppToDatabase
  - the SQL function calculate_read_time of migration 20250609052806
  - the photographer-resolution expression of the BlogPost component

Browser built-ins are modelled explicitly and documented at each definition:
  - document.createElement + innerHTML produce a DOM fragment; the fragment is
    modelled as a tree of element and text nodes, and the two querySelector
    calls of the source are modelled as first-match pre-order searches.
  - the URL constructor is modelled by hostname extraction from an absolute
    URL of the form scheme://[userinfo@]host[:port]/...
  - parseInt and template-literal printing of numbers are modelled over
    integers-or-NaN, which covers every numeric value the source produces.
-/

namespace Spec2Proof

/-! ## JavaScript primitives -/

/-- JavaScript number restricted to integers-or-NaN: every number the embedded
code manipulates is produced by parseInt or written as an integer literal.
none stands for NaN. -/
abbrev JSNum := Option Int

/-- The character of a decimal digit value. -/
def digitChar (d : Nat) : Char := Char.ofNat (48 + d)

/-- Little-endian decimal digit values of a natural number, empty for zero. -/
def natDigitsLE (n : Nat) : List Nat :=
  if h : n = 0 then []
  else
    have : n / 10 < n := Nat.div_lt_self (Nat.pos_of_ne_zero h) (by norm_num)
    (n % 10) :: natDigitsLE (n / 10)

/-- Decimal printing of a natural number, most significant digit first. -/
def natToString (n : Nat) : String :=
  if n = 0 then "0" else String.mk ((natDigitsLE n).reverse.map digitChar)

/-- Printing of a JS integer: decimal digits with a leading minus sign for
negative values. -/
def intToStringJS : Int → String
  | .ofNat m => natToString m
  | .negSucc m => "-" ++ natToString (m + 1)

/-- Template-literal printing of a JSNum, as in the backtick strings of the
source: integers print in decimal, NaN prints as the string NaN. -/
def jsNumToString : JSNum → String
  | some n => intToStringJS n
  | none => "NaN"

/-- The JavaScript OR-default idiom for nullable strings, as in
getAttribute(x) OR fallback: null and the empty string are falsy. -/
def jsOr (a : Option String) (b : String) : String :=
  match a with
  | some s => if s = "" then b else s
  | none => b

/-- Decimal digit value of a character, none when not a digit. -/
def decDigit? (c : Char) : Option Nat :=
  if c.isDigit then some (c.toNat - '0'.toNat) else none

/-- Hexadecimal digit value of a character, none when not a hex digit. -/
def hexDigit? (c : Char) : Option Nat :=
  if c.isDigit then some (c.toNat - '0'.toNat)
  else if 'a' ≤ c ∧ c ≤ 'f' then some (c.toNat - 'a'.toNat + 10)
  else if 'A' ≤ c ∧ c ≤ 'F' then some (c.toNat - 'A'.toNat + 10)
  else none

/-- Whitespace skipped by parseInt (the ASCII part of the JS whitespace set). -/
def isJsSpace (c : Char) : Bool :=
  c = ' ' || c = '\t' || c = '\n' || c = '\r' || c = '\x0b' || c = '\x0c'

/-- Accumulate the value of the leading run of valid digits; none when the
run is empty (parseInt then yields NaN). -/
def parseDigits (base : Nat) (dval : Char → Option Nat) (cs : List Char) : Option Nat :=
  let ds := cs.takeWhile (fun c => (dval c).isSome)
  if ds.isEmpty then none
  else some (ds.foldl (fun acc c => acc * base + ((dval c).getD 0)) 0)

/-- The optional sign read by parseInt. -/
def parseIntSign : List Char → Int × List Char
  | '-' :: rest => (-1, rest)
  | '+' :: rest => (1, rest)
  | cs => (1, cs)

/-- The magnitude read by parseInt after the sign: a 0x/0X hexadecimal
literal, or decimal digits. -/
def parseIntBody : List Char → Option Nat
  | '0' :: 'x' :: rest => parseDigits 16 hexDigit? rest
  | '0' :: 'X' :: rest => parseDigits 16 hexDigit? rest
  | cs => parseDigits 10 decDigit? cs

/-- Model of the built-in parseInt with no radix argument: skip leading
whitespace, read an optional sign, then either a 0x/0X hexadecimal literal or
decimal digits; parsing stops at the first invalid character; NaN (none) when
no digit is read. -/
def parseIntJS (s : String) : JSNum :=
  let signed := parseIntSign (s.toList.dropWhile isJsSpace)
  (parseIntBody signed.2).map (fun n => signed.1 * (n : Int))

/-! ## The two regular-expression matches of parseFlickrEmbed

The source matches href against /photos/([^\/]+)/(\d+) and /album-(\d+).
Both are modelled as leftmost-match scans; the captured groups follow the
greedy semantics of the JS engine, which for these patterns coincide with
maximal runs. -/

/-- Try to match photos/([^\/]+)/(\d+) immediately after a slash already
consumed by the caller, returning the two captures on success. -/
def matchPhotoAt (cs : List Char) : Option (String × String) :=
  let lit := "/photos/".toList
  if lit.isPrefixOf cs then
    let rest := cs.drop lit.length
    let seg := rest.takeWhile (fun c => c ≠ '/')
    if seg.isEmpty then none
    else
      match rest.drop seg.length with
      | '/' :: rest2 =>
        let ds := rest2.takeWhile Char.isDigit
        if ds.isEmpty then none
        else some (String.mk seg, String.mk ds)
      | _ => none
  else none

/-- Leftmost match of the photo pattern over the character list. -/
def photoMatchList : List Char → Option (String × String)
  | [] => none
  | c :: rest =>
    match matchPhotoAt (c :: rest) with
    | some r => some r
    | none => photoMatchList rest

/-- href.match of the photo pattern: some (accountId, numericPhotoId) at the
leftmost occurrence, none when the pattern occurs nowhere. -/
def photoMatch (s : String) : Option (String × String) :=
  photoMatchList s.toList

/-- Try to match album-(\d+) at the head of the list. -/
def matchAlbumAt (cs : List Char) : Option String :=
  let lit := "/album-".toList
  if lit.isPrefixOf cs then
    let ds := (cs.drop lit.length).takeWhile Char.isDigit
    if ds.isEmpty then none else some (String.mk ds)
  else none

/-- Leftmost match of the album pattern over the character list. -/
def albumMatchList : List Char → Option String
  | [] => none
  | c :: rest =>
    match matchAlbumAt (c :: rest) with
    | some r => some r
    | none => albumMatchList rest

/-- href.match of the album pattern: the numeric capture at the leftmost
occurrence, none when absent. -/
def albumMatch (s : String) : Option String :=
  albumMatchList s.toList

/-! ## The DOM fragment model

innerHTML on a detached div parses the snippet into a tree of nodes; the two
querySelector calls of the source search that tree in document order. The
fragment is modelled as a list of nodes, each an element (lower-case tag name,
attribute list, children) or a text node. getAttribute returns the first
attribute of the given name, or null. -/

inductive Node where
  | text (s : String)
  | element (tag : String) (attrs : List (String × String)) (children : List Node)

/-- getAttribute: the value of the first attribute with the given name. -/
def getAttr (attrs : List (String × String)) (name : String) : Option String :=
  (attrs.find? (fun p => p.1 = name)).map (fun p => p.2)

mutual
/-- Pre-order search of a node and its descendants for the first element
satisfying the predicate on tag and attributes. -/
def findInNode (p : String → List (String × String) → Bool) : Node → Option Node
  | .text _ => none
  | .element tag attrs children =>
    if p tag attrs then some (.element tag attrs children)
    else findInNodes p children

/-- Pre-order search of a node list, first match wins. -/
def findInNodes (p : String → List (String × String) → Bool) : List Node → Option Node
  | [] => none
  | n :: rest =>
    match findInNode p n with
    | some r => some r
    | none => findInNodes p rest
end

/-- The selector a[data-flickr-embed="true"]: an anchor whose marker
attribute has exactly the value true. -/
def isMarkedAnchor (tag : String) (attrs : List (String × String)) : Bool :=
  tag = "a" && getAttr attrs "data-flickr-embed" = some "true"

/-- The selector img. -/
def isImgElem (tag : String) (_attrs : List (String × String)) : Bool :=
  tag = "img"

/-- querySelector of the marked anchor over the fragment. -/
def findMarkedAnchor (dom : List Node) : Option Node :=
  findInNodes isMarkedAnchor dom

/-- querySelector of the first image element over the fragment. -/
def findImg (dom : List Node) : Option Node :=
  findInNodes isImgElem dom

/-- Attribute list of a node, empty for a text node. -/
def Node.attrsOf : Node → List (String × String)
  | .text _ => []
  | .element _ attrs _ => attrs

/-! ## parseFlickrEmbed -/

/-- The FlickrImageData interface of src/utils/flickrUtils.ts. Width and
height are JS numbers (integer-or-NaN in this development); albumId is the
optional field of the interface. -/
structure FlickrImageData where
  photoId : String
  userId : String
  photographer : String
  albumId : Option String
  title : String
  imageUrl : String
  width : JSNum
  height : JSNum
  alt : String
  embedUrl : String
  flickrPageUrl : String
  deriving Repr, DecidableEq

/-- parseFlickrEmbed of src/utils/flickrUtils.ts, over the DOM fragment the
browser builds from the snippet. The try/catch of the source turns every
failure into null; the embedding is total and returns none on the same
structural failures. -/
def parseFlickrEmbed (dom : List Node) : Option FlickrImageData :=
  match findMarkedAnchor dom, findImg dom with
  | some link, some img =>
    let href := jsOr (getAttr link.attrsOf "href") ""
    let src := jsOr (getAttr img.attrsOf "src") ""
    let title := jsOr (getAttr link.attrsOf "title") (jsOr (getAttr img.attrsOf "alt") "")
    let alt := jsOr (getAttr img.attrsOf "alt") title
    let width := parseIntJS (jsOr (getAttr img.attrsOf "width") "0")
    let height := parseIntJS (jsOr (getAttr img.attrsOf "height") "0")
    match photoMatch href with
    | none => none
    | some (userId, photoId) =>
      some
        { photoId := photoId
          userId := userId
          photographer := ""
          albumId := albumMatch href
          title := title
          imageUrl := src
          width := width
          height := height
          alt := alt
          embedUrl := href
          flickrPageUrl := href }
  | _, _ => none

/-! ## isFlickrImageUrl and the URL constructor model -/

/-- Substring containment, the String.prototype.includes of the source. -/
def containsStr (s pat : String) : Bool :=
  decide (List.IsInfix pat.toList s.toList)

/-- Model of the built-in URL constructor restricted to what the source
reads from it: the hostname of an absolute URL scheme://[userinfo@]host[:port]/...
The scheme is one or more ASCII letters followed by ://; the authority runs to
the first slash, question mark or hash; text up to a last at-sign is userinfo;
a colon starts the port; the host is lower-cased. none models a constructor
throw (and also a URL with no host, whose hostname is empty and matches no
host test of the source). -/
def parseUrlHostname (s : String) : Option String :=
  let cs := s.toList
  let scheme := cs.takeWhile (fun c => c.isAlpha)
  if scheme.isEmpty then none
  else
    match cs.drop scheme.length with
    | ':' :: '/' :: '/' :: rest =>
      let auth := rest.takeWhile (fun c => c ≠ '/' && c ≠ '?' && c ≠ '#')
      let afterUser :=
        if auth.contains '@' then (auth.reverse.takeWhile (fun c => c ≠ '@')).reverse
        else auth
      let host := afterUser.takeWhile (fun c => c ≠ ':')
      if host.isEmpty then none
      else some (String.mk (host.map Char.toLower))
    | _ => none

/-- isFlickrImageUrl of src/utils/flickrUtils.ts: hostname.includes on the
two domain strings, false when the URL constructor throws. -/
def isFlickrImageUrl (url : String) : Bool :=
  match parseUrlHostname url with
  | some host => containsStr host "flickr.com" || containsStr host "staticflickr.com"
  | none => false

/-- String suffix test over the character lists. -/
def endsWithStr (s pat : String) : Bool :=
  decide (List.IsSuffix pat.toList s.toList)

/-- The embed-host test as the specification words it: a suffix match of the
hostname against the two known domains. Stated only to be compared with
isFlickrImageUrl; the source is the authority. -/
def isFlickrImageUrlSpec (url : String) : Bool :=
  match parseUrlHostname url with
  | some host => endsWithStr host "flickr.com" || endsWithStr host "staticflickr.com"
  | none => false

/-! ## getFlickrImageSizes -/

/-- The return shape of getFlickrImageSizes: either the degenerate object
holding only the input URL, or the six derived size URLs. -/
inductive FlickrImageSizes where
  | originalOnly (original : String)
  | sized (thumbnail small medium large original huge : String)
  deriving Repr, DecidableEq

/-- Indexing the result of a split, as in parts.split(dot)[1]: undefined when
the index is out of range, and template-literal interpolation of undefined
prints the string undefined. -/
def jsIndexGetD (l : List String) (i : Nat) : String :=
  (l.get? i).getD "undefined"

/-- String.prototype.split with a one-character separator: the fields between
occurrences of the separator, keeping empty fields, with the empty string
splitting to one empty field. -/
def splitOnChar (sep : Char) : List Char → List (List Char)
  | [] => [[]]
  | c :: rest =>
    if c = sep then [] :: splitOnChar sep rest
    else
      match splitOnChar sep rest with
      | [] => [[c]]
      | g :: gs => (c :: g) :: gs

/-- Array.prototype.join with a one-character separator. -/
def joinSep (sep : Char) : List (List Char) → List Char
  | [] => []
  | [g] => g
  | g :: gs => g ++ sep :: joinSep sep gs

/-- getFlickrImageSizes of src/utils/flickrUtils.ts: split the URL on
underscores; with fewer than two parts return only the original; otherwise
rejoin all but the last part, read the extension as the second dot-separated
piece of the last part, and emit the six size codes. -/
def getFlickrImageSizes (baseUrl : String) : FlickrImageSizes :=
  let urlParts := splitOnChar '_' baseUrl.toList
  if urlParts.length < 2 then .originalOnly baseUrl
  else
    let baseWithoutSize := String.mk (joinSep '_' urlParts.dropLast)
    let extension := jsIndexGetD ((splitOnChar '.' (urlParts.getLastD [])).map String.mk) 1
    .sized
      (baseWithoutSize ++ "_t." ++ extension)
      (baseWithoutSize ++ "_m." ++ extension)
      (baseWithoutSize ++ "_z." ++ extension)
      (baseWithoutSize ++ "_b." ++ extension)
      (baseWithoutSize ++ "_6k." ++ extension)
      (baseWithoutSize ++ "_h." ++ extension)

/-! ## generateFlickrEmbed -/

/-- generateFlickrEmbed of src/utils/flickrUtils.ts: the template literal
producing the snippet string. -/
def generateFlickrEmbed (data : FlickrImageData) : String :=
  "<a data-flickr-embed=\"true\" href=\"" ++ data.embedUrl ++ "\" title=\"" ++
    data.title ++ "\"><img src=\"" ++ data.imageUrl ++ "\" width=\"" ++
    jsNumToString data.width ++ "\" height=\"" ++ jsNumToString data.height ++
    "\" alt=\"" ++ data.alt ++ "\"/></a><script async src=\"//embedr.flickr.com/assets/client-code.js\" charset=\"utf-8\"></script>"

/-- Whether a string is free of the HTML metacharacters that could change how
the generated snippet parses when interpolated into a double-quoted attribute
or tag position. -/
def noHtmlMeta (s : String) : Bool :=
  !(s.toList.contains '<' || s.toList.contains '>' ||
    s.toList.contains '"' || s.toList.contains '&')

/-- Modelled from the built-in innerHTML parser: the DOM fragment the browser
builds from generateFlickrEmbed data when every interpolated field is free of
HTML metacharacters. The snippet is then the anchor with its three attributes,
holding the image with its four attributes, followed by the script element. -/
def generateFlickrEmbedDom (data : FlickrImageData) : List Node :=
  [ .element "a"
      [("data-flickr-embed", "true"), ("href", data.embedUrl), ("title", data.title)]
      [ .element "img"
          [("src", data.imageUrl), ("width", jsNumToString data.width),
           ("height", jsNumToString data.height), ("alt", data.alt)] [] ],
    .element "script"
      [("async", ""), ("src", "//embedr.flickr.com/assets/client-code.js"),
       ("charset", "utf-8")] [] ]

/-! ## The record mappers of the blog service

The attribution map stored in the jsonb column image_metadata maps an image
URL to an entry; the application code reads only the photographer field of an
entry, so entries are modelled by that field (none models a missing field). -/

/-- An entry of the per-post attribution map. -/
structure AttrEntry where
  photographer : Option String
  deriving Repr, DecidableEq

/-- The attribution map: a JSON object keyed by image URL. -/
abbrev AttrMap := List (String × AttrEntry)

/-- First-match association lookup, the bracket indexing of a JS object and
the get of a Map. -/
def lookupByKey {α : Type} (l : List (String × α)) (k : String) : Option α :=
  (l.find? (fun p => p.1 = k)).map (fun p => p.2)

/-- The BlogFormData interface: the app-side shape of a post being created or
edited. imageMetadata is the optional attribution map. -/
structure BlogFormData where
  title : String
  category : String
  imageUrl : String
  images : List String
  excerpt : String
  content : String
  imageMetadata : Option AttrMap := none
  deriving Repr, DecidableEq

/-- The BlogPost interface: the app-facing shape of a stored post. -/
structure BlogPost where
  id : String
  title : String
  category : String
  imageUrl : String
  images : List String
  excerpt : String
  content : String
  date : String
  readTime : String
  imageMetadata : Option AttrMap := none
  deriving Repr, DecidableEq

/-- A row of the blog_posts table as the service reads it (the
DatabaseBlogPost interface plus the image_metadata column added by migration
20250709100303). The images column is nullable, which the mapper defends
against; created_at is the stored instant in milliseconds since the epoch
(post-epoch instants, which covers every timestamp the table can acquire
through this application). -/
structure DatabaseBlogPost where
  id : String
  title : String
  category : String
  image_url : String
  images : Option (List String)
  excerpt : String
  content : String
  read_time : String
  created_at : Nat
  updated_at : Nat
  created_by : Option String := none
  image_metadata : Option AttrMap := none
  deriving Repr, DecidableEq

/-- Two-digit zero padding of toISOString. -/
def pad2 (n : Nat) : String :=
  if n < 10 then "0" ++ toString n else toString n

/-- Four-digit zero padding of toISOString. -/
def pad4 (n : Nat) : String :=
  if n < 10 then "000" ++ toString n
  else if n < 100 then "00" ++ toString n
  else if n < 1000 then "0" ++ toString n
  else toString n

/-- Proleptic-Gregorian civil date of a day count since 1970-01-01 (the
standard civil-from-days computation, restricted to nonnegative day counts). -/
def civilFromDays (days : Nat) : Nat × Nat × Nat :=
  let z := days + 719468
  let era := z / 146097
  let doe := z % 146097
  let yoe := (doe - doe / 1460 + doe / 36524 - doe / 146096) / 365
  let y := yoe + era * 400
  let doy := doe - (365 * yoe + yoe / 4 - yoe / 100)
  let mp := (5 * doy + 2) / 153
  let d := doy - (153 * mp + 2) / 5 + 1
  let m := if mp < 10 then mp + 3 else mp - 9
  (if m ≤ 2 then y + 1 else y, m, d)

/-- Model of new Date(created_at).toISOString().split(T)[0]: the UTC calendar
date of the instant, written YYYY-MM-DD. -/
def toIsoDatePart (epochMs : Nat) : String :=
  let c := civilFromDays (epochMs / 86400000)
  pad4 c.1 ++ "-" ++ pad2 c.2.1 ++ "-" ++ pad2 c.2.2

/-- mapDatabaseToApp of the blog service: field renaming, the null-defense on
images, the derived display date. The returned object literal of the source
carries no imageMetadata key, so the field is none. -/
def mapDatabaseToApp (dbPost : DatabaseBlogPost) : BlogPost :=
  { id := dbPost.id
    title := dbPost.title
    category := dbPost.category
    imageUrl := dbPost.image_url
    images := dbPost.images.getD []
    excerpt := dbPost.excerpt
    content := dbPost.content
    readTime := dbPost.read_time
    date := toIsoDatePart dbPost.created_at
    imageMetadata := none }

/-- The insert/update payload shape of mapAppToDatabase: the row minus the
server-assigned id, read_time, created_at and updated_at. -/
structure DatabaseBlogPostInput where
  title : String
  category : String
  image_url : String
  images : List String
  excerpt : String
  content : String
  deriving Repr, DecidableEq

/-- mapAppToDatabase of the blog service. The images defense of the source,
appPost.images OR empty-array, is the identity here because an array value is
always truthy. The object literal carries no image_metadata key. -/
def mapAppToDatabase (appPost : BlogFormData) : DatabaseBlogPostInput :=
  { title := appPost.title
    category := appPost.category
    image_url := appPost.imageUrl
    images := appPost.images
    excerpt := appPost.excerpt
    content := appPost.content }

/-- The row the database returns after inserting a payload: the payload fields
verbatim, with the server-assigned id, read_time (trigger-computed), creation
and update timestamps, creator reference, and the image_metadata column, which
the payload never sets and the table defaults to the empty object. -/
def serverCompleted (inp : DatabaseBlogPostInput) (id read_time : String)
    (created_at updated_at : Nat) (created_by : Option String)
    (image_metadata : Option AttrMap) : DatabaseBlogPost :=
  { id := id
    title := inp.title
    category := inp.category
    image_url := inp.image_url
    images := some inp.images
    excerpt := inp.excerpt
    content := inp.content
    read_time := read_time
    created_at := created_at
    updated_at := updated_at
    created_by := created_by
    image_metadata := image_metadata }

/-! ## calculate_read_time (SQL migration 20250609052806) -/

/-- Postgres trim with the default character set: strip spaces (only spaces)
from both ends. -/
def pgTrim (s : String) : String :=
  String.mk (((s.toList.dropWhile (fun c => c = ' ')).reverse.dropWhile
    (fun c => c = ' ')).reverse)

/-- Postgres string_to_array with a single-space delimiter: the empty string
yields the empty array; otherwise the fields between single spaces, with
consecutive spaces producing empty fields. -/
def stringToArraySpace (s : String) : List String :=
  if s = "" then [] else (splitOnChar ' ' s.toList).map String.mk

/-- Postgres array_length(arr, 1): NULL (none) for the empty array. -/
def arrayLength1 (l : List String) : Option Nat :=
  if l.isEmpty then none else some l.length

/-- calculate_read_time of migration 20250609052806: count the fields of the
trimmed content split on single spaces; divide by 200 with ceiling (the float
division of the source is exact here, so the ceiling is computed exactly);
GREATEST(1, x) ignores a NULL count and clamps below by one. -/
def calculate_read_time (content_text : String) : String :=
  let word_count := arrayLength1 (stringToArraySpace (pgTrim content_text))
  let read_minutes : Nat :=
    match word_count with
    | none => 1
    | some w => max 1 ((w + 199) / 200)
  toString read_minutes ++ " min read"

/-! ## The photographer resolution of the BlogPost component -/

/-- The blog_images row fields the attribution display reads. Modelled from
the spec: the imageService module itself is not among the provided sources;
per the spec and the blog_images migration the uploaded-image index maps a
public URL to a record whose photographer column is nullable. -/
structure ImageMetadata where
  photographer : Option String
  deriving Repr, DecidableEq

/-- The photographer-resolution expression of the BlogPost component (the
lightbox attribution, and with identical structure the hero and gallery
attributions): for an embed-host URL, the photographer of the post attribution
map entry for the URL, with the fixed fallback Flickr User; otherwise the
photographer of the uploaded-image index entry for the URL, with the global
default Kate Goldenring. -/
def resolvePhotographer (url : String) (postAttr : Option AttrMap)
    (index : List (String × ImageMetadata)) : String :=
  if isFlickrImageUrl url then
    jsOr ((postAttr.bind (fun m => lookupByKey m url)).bind
      (fun e => e.photographer)) "Flickr User"
  else
    jsOr ((lookupByKey index url).bind (fun m => m.photographer)) "Kate Goldenring"

/-! ## Supporting lemmas: decimal printing and parseInt -/

theorem jsOr_some_empty (s : String) : jsOr (some s) "" = s := by
  by_cases h : s = "" <;> simp [jsOr, h]

/-- The value of a little-endian digit list. -/
def valLE : List Nat → Nat
  | [] => 0
  | d :: ds => d + 10 * valLE ds

theorem valLE_natDigitsLE (n : Nat) : valLE (natDigitsLE n) = n := by
  induction n using Nat.strong_induction_on with
  | _ n ih =>
    rw [natDigitsLE]
    by_cases h : n = 0
    · simp [h, valLE]
    · rw [dif_neg h]
      have hlt : n / 10 < n := Nat.div_lt_self (Nat.pos_of_ne_zero h) (by norm_num)
      rw [valLE, ih (n / 10) hlt]
      omega

theorem natDigitsLE_lt_ten (n : Nat) : ∀ d ∈ natDigitsLE n, d < 10 := by
  induction n using Nat.strong_induction_on with
  | _ n ih =>
    rw [natDigitsLE]
    by_cases h : n = 0
    · simp [h]
    · rw [dif_neg h]
      intro d hd
      rcases List.mem_cons.mp hd with h1 | h1
      · subst h1; exact Nat.mod_lt n (by norm_num)
      · exact ih (n / 10) (Nat.div_lt_self (Nat.pos_of_ne_zero h) (by norm_num)) d h1

theorem natDigitsLE_ne_nil (n : Nat) (h : n ≠ 0) : natDigitsLE n ≠ [] := by
  rw [natDigitsLE, dif_neg h]
  simp

theorem foldl_reverse_digits (ds : List Nat) (a : Nat) :
    ds.reverse.foldl (fun acc d => acc * 10 + d) a = a * 10 ^ ds.length + valLE ds := by
  induction ds generalizing a with
  | nil => simp [valLE]
  | cons d ds ih =>
    rw [List.reverse_cons, List.foldl_append, ih a]
    simp only [List.foldl, valLE, List.length_cons]
    rw [pow_succ]
    ring

theorem decDigit_digitChar (d : Nat) (hd : d < 10) : decDigit? (digitChar d) = some d := by
  interval_cases d <;> decide

theorem takeWhile_all {p : Char → Bool} :
    ∀ l : List Char, (∀ c ∈ l, p c = true) → l.takeWhile p = l := by
  intro l h
  induction l with
  | nil => rfl
  | cons c cs ih =>
    rw [List.takeWhile_cons, h c (List.mem_cons_self c cs)]
    simp [ih (fun x hx => h x (List.mem_cons_of_mem c hx))]

theorem foldl_digit_chars (ds : List Nat) (hds : ∀ d ∈ ds, d < 10) (a : Nat) :
    (ds.map digitChar).foldl (fun acc c => acc * 10 + ((decDigit? c).getD 0)) a =
      ds.foldl (fun acc d => acc * 10 + d) a := by
  induction ds generalizing a with
  | nil => rfl
  | cons d ds ih =>
    simp only [List.map_cons, List.foldl_cons]
    rw [decDigit_digitChar d (hds d (List.mem_cons_self d ds))]
    exact ih (fun x hx => hds x (List.mem_cons_of_mem d hx)) _

theorem parseDigits_digits (n : Nat) (h : n ≠ 0) :
    parseDigits 10 decDigit? ((natDigitsLE n).reverse.map digitChar) = some n := by
  have hlt := natDigitsLE_lt_ten n
  have hdig : ∀ c ∈ (natDigitsLE n).reverse.map digitChar, ((decDigit? c).isSome) = true := by
    intro c hc
    rcases List.mem_map.mp hc with ⟨d, hd, rfl⟩
    rw [decDigit_digitChar d (hlt d (List.mem_reverse.mp hd))]
    rfl
  rw [parseDigits, takeWhile_all _ hdig]
  have hne : ¬ ((natDigitsLE n).reverse.map digitChar).isEmpty = true := by
    simp [List.isEmpty_iff, natDigitsLE_ne_nil n h]
  rw [if_neg hne]
  have : ∀ d ∈ (natDigitsLE n).reverse, d < 10 := fun d hd =>
    hlt d (List.mem_reverse.mp hd)
  rw [foldl_digit_chars _ this 0, foldl_reverse_digits, valLE_natDigitsLE]
  simp

theorem digitChar_not_space (d : Nat) (hd : d < 10) : isJsSpace (digitChar d) = false := by
  interval_cases d <;> decide

theorem digitChar_ne_minus (d : Nat) (hd : d < 10) : digitChar d ≠ '-' := by
  interval_cases d <;> decide

theorem digitChar_ne_plus (d : Nat) (hd : d < 10) : digitChar d ≠ '+' := by
  interval_cases d <;> decide

theorem digitChar_isDigit (d : Nat) (hd : d < 10) : (digitChar d).isDigit = true := by
  interval_cases d <;> decide

theorem parseIntSign_default (c : Char) (rest : List Char) (h1 : c ≠ '-') (h2 : c ≠ '+') :
    parseIntSign (c :: rest) = (1, c :: rest) := by
  unfold parseIntSign
  split
  · rename_i heq
    injection heq with hc _
    exact absurd hc h1
  · rename_i heq
    injection heq with hc _
    exact absurd hc h2
  · rfl

theorem parseIntBody_digits (cs : List Char) (h : ∀ c ∈ cs, c.isDigit = true) :
    parseIntBody cs = parseDigits 10 decDigit? cs := by
  unfold parseIntBody
  split
  · exfalso
    have hx : ('x' : Char).isDigit = true := by
      apply h; simp
    exact absurd hx (by decide)
  · exfalso
    have hx : ('X' : Char).isDigit = true := by
      apply h; simp
    exact absurd hx (by decide)
  · rfl

theorem digits_chars_isDigit (n : Nat) :
    ∀ c ∈ (natDigitsLE n).reverse.map digitChar, c.isDigit = true := by
  intro c hc
  rcases List.mem_map.mp hc with ⟨d, hd, rfl⟩
  exact digitChar_isDigit d (natDigitsLE_lt_ten n d (List.mem_reverse.mp hd))

theorem parseIntJS_natToString (m : Nat) :
    parseIntJS (natToString m) = some (m : Int) := by
  by_cases hm : m = 0
  · subst hm; decide
  · rw [natToString, if_neg hm, parseIntJS]
    have htl : (String.mk ((natDigitsLE m).reverse.map digitChar)).toList =
        (natDigitsLE m).reverse.map digitChar := rfl
    rw [htl]
    obtain ⟨c, cs, hl⟩ : ∃ c cs, (natDigitsLE m).reverse.map digitChar = c :: cs := by
      cases hcase : (natDigitsLE m).reverse.map digitChar with
      | nil =>
        exfalso
        have := natDigitsLE_ne_nil m hm
        simp at hcase
        exact this hcase
      | cons c cs => exact ⟨c, cs, rfl⟩
    obtain ⟨d, hd, hcd⟩ : ∃ d, d < 10 ∧ digitChar d = c := by
      have hc : c ∈ (natDigitsLE m).reverse.map digitChar := by rw [hl]; simp
      rcases List.mem_map.mp hc with ⟨d, hd, hdc⟩
      exact ⟨d, natDigitsLE_lt_ten m d (List.mem_reverse.mp hd), hdc⟩
    subst hcd
    rw [hl, List.dropWhile_cons, digitChar_not_space d hd]
    simp only [Bool.false_eq_true, if_false]
    rw [parseIntSign_default _ _ (digitChar_ne_minus d hd) (digitChar_ne_plus d hd)]
    simp only
    rw [← hl, parseIntBody_digits _ (digits_chars_isDigit m), parseDigits_digits m hm]
    simp

theorem parseIntJS_print (x : JSNum) : parseIntJS (jsNumToString x) = x := by
  cases x with
  | none => decide
  | some n =>
    cases n with
    | ofNat m => exact parseIntJS_natToString m
    | negSucc m =>
      rw [jsNumToString, intToStringJS, natToString, if_neg (Nat.succ_ne_zero m)]
      have hmk : ("-" ++ String.mk ((natDigitsLE (m + 1)).reverse.map digitChar)) =
          String.mk ('-' :: (natDigitsLE (m + 1)).reverse.map digitChar) := rfl
      rw [hmk, parseIntJS]
      have htl : (String.mk ('-' :: (natDigitsLE (m + 1)).reverse.map digitChar)).toList =
          '-' :: (natDigitsLE (m + 1)).reverse.map digitChar := rfl
      rw [htl, List.dropWhile_cons]
      have hsp : isJsSpace '-' = false := by decide
      rw [hsp]
      simp only [Bool.false_eq_true, if_false, parseIntSign]
      rw [parseIntBody_digits _ (digits_chars_isDigit (m + 1)),
        parseDigits_digits (m + 1) (Nat.succ_ne_zero m)]
      simp [Int.negSucc_eq]

/-! ## Supporting lemmas: split and join -/

theorem toList_mk (l : List Char) : (String.mk l).toList = l := rfl

theorem mk_toList (s : String) : String.mk s.toList = s := rfl

theorem toList_append (a b : String) : (a ++ b).toList = a.toList ++ b.toList := rfl

theorem splitOnChar_ne_nil (sep : Char) (l : List Char) : splitOnChar sep l ≠ [] := by
  induction l with
  | nil => simp [splitOnChar]
  | cons c rest ih =>
    rw [splitOnChar]
    by_cases h : c = sep
    · simp [h]
    · rw [if_neg h]
      cases hs : splitOnChar sep rest with
      | nil => simp
      | cons g gs => simp

theorem splitOnChar_append (sep : Char) (x y : List Char) :
    splitOnChar sep (x ++ sep :: y) = splitOnChar sep x ++ splitOnChar sep y := by
  induction x with
  | nil => simp [splitOnChar]
  | cons c xs ih =>
    simp only [List.cons_append]
    by_cases h : c = sep
    · rw [splitOnChar, if_pos h, ih, splitOnChar, if_pos h]
      rfl
    · rw [splitOnChar, if_neg h, ih]
      conv_rhs => rw [splitOnChar, if_neg h]
      cases hs : splitOnChar sep xs with
      | nil => exact absurd hs (splitOnChar_ne_nil sep xs)
      | cons g gs => simp

theorem splitOnChar_no_sep (sep : Char) (y : List Char) (h : ∀ c ∈ y, c ≠ sep) :
    splitOnChar sep y = [y] := by
  induction y with
  | nil => rfl
  | cons c ys ih =>
    rw [splitOnChar, if_neg (h c (List.mem_cons_self c ys))]
    rw [ih (fun a ha => h a (List.mem_cons_of_mem c ha))]

theorem joinSep_splitOnChar (sep : Char) (l : List Char) :
    joinSep sep (splitOnChar sep l) = l := by
  induction l with
  | nil => rfl
  | cons c rest ih =>
    rw [splitOnChar]
    by_cases h : c = sep
    · rw [if_pos h]
      cases hs : splitOnChar sep rest with
      | nil => exact absurd hs (splitOnChar_ne_nil sep rest)
      | cons g gs =>
        have : joinSep sep ([] :: g :: gs) = sep :: joinSep sep (g :: gs) := rfl
        rw [this, ← hs, ih, h]
    · rw [if_neg h]
      cases hs : splitOnChar sep rest with
      | nil => exact absurd hs (splitOnChar_ne_nil sep rest)
      | cons g gs =>
        cases gs with
        | nil =>
          have hj : joinSep sep [c :: g] = c :: g := rfl
          rw [hj]
          have : joinSep sep [g] = g := rfl
          rw [← this, ← hs, ih]
        | cons g2 gs2 =>
          have hj : joinSep sep ((c :: g) :: g2 :: gs2) =
              (c :: g) ++ sep :: joinSep sep (g2 :: gs2) := rfl
          rw [hj]
          have hj2 : joinSep sep (g :: g2 :: gs2) = g ++ sep :: joinSep sep (g2 :: gs2) := rfl
          simp only [List.cons_append]
          rw [← hj2, ← hs, ih]

/-! ## Supporting lemmas: the DOM search -/

mutual
/-- An element search succeeding inside a node found by another search also
succeeds over the node searched. -/
theorem findInNode_mono (p q : String → List (String × String) → Bool)
    (n link : Node) (h : findInNode p n = some link)
    (hq : (findInNode q link).isSome = true) : (findInNode q n).isSome = true := by
  cases n with
  | text s => simp [findInNode] at h
  | element tag attrs children =>
    rw [findInNode] at h
    by_cases hp : p tag attrs
    · rw [if_pos hp] at h
      injection h with h
      subst h
      exact hq
    · rw [if_neg hp] at h
      rw [findInNode]
      by_cases hq2 : q tag attrs
      · rw [if_pos hq2]; rfl
      · rw [if_neg hq2]
        exact findInNodes_mono p q children link h hq

/-- The list version of findInNode_mono. -/
theorem findInNodes_mono (p q : String → List (String × String) → Bool)
    (l : List Node) (link : Node) (h : findInNodes p l = some link)
    (hq : (findInNode q link).isSome = true) : (findInNodes q l).isSome = true := by
  cases l with
  | nil => simp [findInNodes] at h
  | cons n rest =>
    rw [findInNodes] at h
    rw [findInNodes]
    cases hn : findInNode p n with
    | some link0 =>
      rw [hn] at h
      have hl : link0 = link := by injection h
      rw [hl] at hn
      have h1 := findInNode_mono p q n link hn hq
      cases hqn : findInNode q n with
      | some r => rfl
      | none => rw [hqn] at h1; simp at h1
    | none =>
      rw [hn] at h
      have h1 := findInNodes_mono p q rest link h hq
      cases hqn : findInNode q n with
      | some r => rfl
      | none => exact h1
end

/-! ## Claim theorems -/

/-- C1: for every embed fragment whose provenance-marked anchor is found and
contains an image element, and whose anchor href matches the photo pattern
photos/accountId/numericPhotoId, parseFlickrEmbed returns a non-null result
whose userId and photoId equal the two captured path segments of the href. -/
theorem c1_parse_extracts_path_ids (dom : List Node) (link : Node) (u p : String)
    (hA : findMarkedAnchor dom = some link)
    (hImg : (findInNode isImgElem link).isSome = true)
    (hM : photoMatch (jsOr (getAttr link.attrsOf "href") "") = some (u, p)) :
    (parseFlickrEmbed dom).map (fun r => (r.userId, r.photoId)) = some (u, p) := by
  have hFind : (findInNodes isImgElem dom).isSome = true :=
    findInNodes_mono _ _ dom link hA hImg
  obtain ⟨img, hI⟩ := Option.isSome_iff_exists.mp hFind
  have hI2 : findImg dom = some img := hI
  unfold parseFlickrEmbed
  rw [hA, hI2]
  dsimp only
  rw [hM]
  rfl

/-- Witness for C1 at a concrete snippet. -/
theorem c1_parse_extracts_path_ids_witness :
    (parseFlickrEmbed
      [Node.element "a"
        [("data-flickr-embed", "true"), ("href", "https://www.flickr.com/photos/kateg/54321/")]
        [Node.element "img"
          [("src", "https://live.staticflickr.com/1/54321_z.jpg"), ("alt", "A")] []]]).map
      (fun r => (r.userId, r.photoId)) = some ("kateg", "54321") :=
  c1_parse_extracts_path_ids
    [Node.element "a"
      [("data-flickr-embed", "true"), ("href", "https://www.flickr.com/photos/kateg/54321/")]
      [Node.element "img"
        [("src", "https://live.staticflickr.com/1/54321_z.jpg"), ("alt", "A")] []]]
    (Node.element "a"
      [("data-flickr-embed", "true"), ("href", "https://www.flickr.com/photos/kateg/54321/")]
      [Node.element "img"
        [("src", "https://live.staticflickr.com/1/54321_z.jpg"), ("alt", "A")] []])
    "kateg" "54321" rfl rfl (by decide)

/-- C2: a fragment with no provenance-marked anchor, or no image element, or
an anchor href the photo pattern does not match, parses to null; the embedding
is a total function into an option type, which models that the source returns
null rather than throwing on every such input. -/
theorem c2_structural_failures_yield_null (dom : List Node)
    (h : findMarkedAnchor dom = none ∨ findImg dom = none ∨
      (∀ link, findMarkedAnchor dom = some link →
        photoMatch (jsOr (getAttr link.attrsOf "href") "") = none)) :
    parseFlickrEmbed dom = none := by
  unfold parseFlickrEmbed
  cases hA : findMarkedAnchor dom with
  | none => rfl
  | some link =>
    cases hI : findImg dom with
    | none => rfl
    | some img =>
      rcases h with h1 | h2 | h3
      · rw [hA] at h1; exact absurd h1 (by simp)
      · rw [hI] at h2; exact absurd h2 (by simp)
      · dsimp only
        rw [h3 link hA]

/-- Witness for C2 at concrete snippets covering the three failure shapes. -/
theorem c2_structural_failures_yield_null_witness :
    parseFlickrEmbed [Node.element "img" [("src", "x")] []] = none ∧
    parseFlickrEmbed [Node.element "a" [("data-flickr-embed", "true"), ("href", "y")] []] = none ∧
    parseFlickrEmbed
      [Node.element "a" [("data-flickr-embed", "true"), ("href", "https://www.flickr.com/")]
        [Node.element "img" [("src", "x")] []]] = none :=
  ⟨c2_structural_failures_yield_null _ (Or.inl rfl),
   c2_structural_failures_yield_null _ (Or.inr (Or.inl rfl)),
   c2_structural_failures_yield_null _ (Or.inr (Or.inr (by
     intro link hl
     injection hl with hl
     subst hl
     decide)))⟩

/-- The value parseFlickrEmbed returns once the anchor and image are found
and the photo pattern matches. -/
theorem parseFlickrEmbed_success (dom : List Node) (link img : Node) (u p : String)
    (hA : findMarkedAnchor dom = some link) (hI : findImg dom = some img)
    (hM : photoMatch (jsOr (getAttr link.attrsOf "href") "") = some (u, p)) :
    parseFlickrEmbed dom = some
      { photoId := p, userId := u, photographer := "",
        albumId := albumMatch (jsOr (getAttr link.attrsOf "href") ""),
        title := jsOr (getAttr link.attrsOf "title") (jsOr (getAttr img.attrsOf "alt") ""),
        imageUrl := jsOr (getAttr img.attrsOf "src") "",
        width := parseIntJS (jsOr (getAttr img.attrsOf "width") "0"),
        height := parseIntJS (jsOr (getAttr img.attrsOf "height") "0"),
        alt := jsOr (getAttr img.attrsOf "alt")
          (jsOr (getAttr link.attrsOf "title") (jsOr (getAttr img.attrsOf "alt") "")),
        embedUrl := jsOr (getAttr link.attrsOf "href") "",
        flickrPageUrl := jsOr (getAttr link.attrsOf "href") "" } := by
  unfold parseFlickrEmbed
  rw [hA, hI]
  dsimp only
  rw [hM]

/-- C8 (amended): on a successful parse the width and height are the parseInt
of the corresponding image attributes with a missing attribute read as the
string 0; a missing attribute therefore yields 0, while a non-numeric
attribute yields NaN; the parse never fails for lack of dimensions. -/
theorem c8_amended_dimensions (dom : List Node) (link img : Node) (u p : String)
    (hA : findMarkedAnchor dom = some link) (hI : findImg dom = some img)
    (hM : photoMatch (jsOr (getAttr link.attrsOf "href") "") = some (u, p)) :
    (parseFlickrEmbed dom).map (fun r => (r.width, r.height)) =
      some (parseIntJS (jsOr (getAttr img.attrsOf "width") "0"),
        parseIntJS (jsOr (getAttr img.attrsOf "height") "0")) ∧
    (getAttr img.attrsOf "width" = none →
      (parseFlickrEmbed dom).map (fun r => r.width) = some (some 0)) ∧
    (getAttr img.attrsOf "height" = none →
      (parseFlickrEmbed dom).map (fun r => r.height) = some (some 0)) := by
  rw [parseFlickrEmbed_success dom link img u p hA hI hM]
  refine ⟨rfl, fun hw => ?_, fun hh => ?_⟩
  · simp only [Option.map_some', hw]
    rfl
  · simp only [Option.map_some', hh]
    rfl

/-- Witness for C8 at a concrete snippet with no dimension attributes. -/
theorem c8_amended_dimensions_witness :
    (parseFlickrEmbed
      [Node.element "a" [("data-flickr-embed", "true"), ("href", "/photos/kateg/54321")]
        [Node.element "img" [("src", "s")] []]]).map (fun r => (r.width, r.height)) =
      some (some 0, some 0) :=
  (c8_amended_dimensions
    [Node.element "a" [("data-flickr-embed", "true"), ("href", "/photos/kateg/54321")]
      [Node.element "img" [("src", "s")] []]]
    (Node.element "a" [("data-flickr-embed", "true"), ("href", "/photos/kateg/54321")]
      [Node.element "img" [("src", "s")] []])
    (Node.element "img" [("src", "s")] [])
    "kateg" "54321" rfl rfl (by decide)).1

/-- Counterexample to C8 as stated: a non-numeric width attribute parses to
NaN, not to the claimed 0 (the parse still succeeds and the numeric height is
read normally). -/
theorem c8_counterexample_non_numeric :
    (parseFlickrEmbed
      [Node.element "a" [("data-flickr-embed", "true"), ("href", "/photos/kateg/54321")]
        [Node.element "img" [("src", "s"), ("width", "abc"), ("height", "7")] []]]).map
      (fun r => (r.width, r.height)) = some (none, some 7) ∧
    (parseFlickrEmbed
      [Node.element "a" [("data-flickr-embed", "true"), ("href", "/photos/kateg/54321")]
        [Node.element "img" [("src", "s"), ("width", "abc"), ("height", "7")] []]]).map
      (fun r => r.width) ≠ some (some 0) := by
  constructor
  · rfl
  · decide

theorem jsOr_some_ne (s d : String) (h : s ≠ "") : jsOr (some s) d = s := by
  rw [jsOr, if_neg h]

theorem getAttr_gen_href (e t : String) (cs : List Node) :
    getAttr (Node.element "a"
      [("data-flickr-embed", "true"), ("href", e), ("title", t)] cs).attrsOf "href" =
      some e := rfl

theorem getAttr_gen_title (e t : String) (cs : List Node) :
    getAttr (Node.element "a"
      [("data-flickr-embed", "true"), ("href", e), ("title", t)] cs).attrsOf "title" =
      some t := rfl

theorem getAttr_gen_src (s w h a : String) :
    getAttr (Node.element "img"
      [("src", s), ("width", w), ("height", h), ("alt", a)] []).attrsOf "src" =
      some s := rfl

theorem getAttr_gen_width (s w h a : String) :
    getAttr (Node.element "img"
      [("src", s), ("width", w), ("height", h), ("alt", a)] []).attrsOf "width" =
      some w := rfl

theorem getAttr_gen_height (s w h a : String) :
    getAttr (Node.element "img"
      [("src", s), ("width", w), ("height", h), ("alt", a)] []).attrsOf "height" =
      some h := rfl

theorem getAttr_gen_alt (s w h a : String) :
    getAttr (Node.element "img"
      [("src", s), ("width", w), ("height", h), ("alt", a)] []).attrsOf "alt" =
      some a := rfl

theorem jsNumToString_ne_empty (x : JSNum) : jsNumToString x ≠ "" := by
  cases x with
  | none => decide
  | some n =>
    cases n with
    | ofNat m =>
      show natToString m ≠ ""
      rw [natToString]
      by_cases hm : m = 0
      · rw [if_pos hm]; decide
      · rw [if_neg hm]
        intro hcon
        have h2 : (natDigitsLE m).reverse.map digitChar = ("" : String).toList := by
          rw [← hcon]; rfl
        simp at h2
        exact natDigitsLE_ne_nil m hm h2
    | negSucc m =>
      show "-" ++ natToString (m + 1) ≠ ""
      intro hcon
      have h2 : ("-" ++ natToString (m + 1)).toList = [] := by rw [hcon]; rfl
      rw [toList_append] at h2
      simp at h2

/-- C10 (amended): generating an embed snippet from a record whose embedUrl
matches the photo pattern with the record identifiers as captures, whose
title and alt are both empty or both nonempty, and whose interpolated fields
are free of HTML metacharacters, then parsing it back, reproduces the record
identifiers, title, image URL, dimensions, alt and embed URL; the
photographer comes back blank and the album id and page URL are re-derived
from the embed URL. -/
theorem c10_amended_generate_parse (d : FlickrImageData)
    (hM : photoMatch d.embedUrl = some (d.userId, d.photoId))
    (hTA : d.title = "" ↔ d.alt = "")
    (_h1 : noHtmlMeta d.title = true) (_h2 : noHtmlMeta d.alt = true)
    (_h3 : noHtmlMeta d.imageUrl = true) (_h4 : noHtmlMeta d.embedUrl = true) :
    parseFlickrEmbed (generateFlickrEmbedDom d) = some
      { photoId := d.photoId, userId := d.userId, photographer := "",
        albumId := albumMatch d.embedUrl, title := d.title, imageUrl := d.imageUrl,
        width := d.width, height := d.height, alt := d.alt,
        embedUrl := d.embedUrl, flickrPageUrl := d.embedUrl } := by
  have hA : findMarkedAnchor (generateFlickrEmbedDom d) = some
      (Node.element "a"
        [("data-flickr-embed", "true"), ("href", d.embedUrl), ("title", d.title)]
        [Node.element "img"
          [("src", d.imageUrl), ("width", jsNumToString d.width),
           ("height", jsNumToString d.height), ("alt", d.alt)] []]) := rfl
  have hI : findImg (generateFlickrEmbedDom d) = some
      (Node.element "img"
        [("src", d.imageUrl), ("width", jsNumToString d.width),
         ("height", jsNumToString d.height), ("alt", d.alt)] []) := rfl
  have hM2 : photoMatch (jsOr (some d.embedUrl) "") = some (d.userId, d.photoId) := by
    rw [jsOr_some_empty]; exact hM
  have hres := parseFlickrEmbed_success (generateFlickrEmbedDom d) _ _ d.userId d.photoId
    hA hI hM2
  have htitle : jsOr (some d.title) d.alt = d.title := by
    by_cases ht : d.title = ""
    · rw [ht, hTA.mp ht]; rfl
    · rw [jsOr, if_neg ht]
  have halt : jsOr (some d.alt) d.title = d.alt := by
    by_cases ha : d.alt = ""
    · rw [ha, hTA.mpr ha]; rfl
    · rw [jsOr, if_neg ha]
  simp only [getAttr_gen_href, getAttr_gen_title, getAttr_gen_src, getAttr_gen_width,
    getAttr_gen_height, getAttr_gen_alt, jsOr_some_empty] at hres
  rw [jsOr_some_ne (jsNumToString d.width) "0" (jsNumToString_ne_empty d.width),
    jsOr_some_ne (jsNumToString d.height) "0" (jsNumToString_ne_empty d.height),
    parseIntJS_print d.width, parseIntJS_print d.height, htitle, halt] at hres
  exact hres

/-- A well-formed embed record used to witness the generate/parse round trip. -/
def c10Data : FlickrImageData :=
  { photoId := "54321", userId := "kateg", photographer := "P", albumId := some "9",
    title := "T", imageUrl := "https://live.staticflickr.com/1/54321_z.jpg",
    width := some 640, height := some 480, alt := "A",
    embedUrl := "https://www.flickr.com/photos/kateg/54321/in/album-99/",
    flickrPageUrl := "elsewhere" }

/-- Witness for C10 at a concrete record. -/
theorem c10_amended_generate_parse_witness :
    photoMatch c10Data.embedUrl = some (c10Data.userId, c10Data.photoId) ∧
    (c10Data.title = "" ↔ c10Data.alt = "") ∧
    parseFlickrEmbed (generateFlickrEmbedDom c10Data) = some
      { photoId := "54321", userId := "kateg", photographer := "",
        albumId := some "99", title := "T",
        imageUrl := "https://live.staticflickr.com/1/54321_z.jpg",
        width := some 640, height := some 480, alt := "A",
        embedUrl := "https://www.flickr.com/photos/kateg/54321/in/album-99/",
        flickrPageUrl := "https://www.flickr.com/photos/kateg/54321/in/album-99/" } :=
  ⟨by decide, by decide,
    c10_amended_generate_parse c10Data (by decide) (by decide) (by decide) (by decide)
      (by decide) (by decide)⟩

/-- A record with an empty title but a nonempty alt, on which the stated
round trip fails. -/
def c10Bad : FlickrImageData :=
  { photoId := "1", userId := "a", photographer := "", albumId := none,
    title := "", imageUrl := "i", width := some 1, height := some 1, alt := "x",
    embedUrl := "/photos/a/1", flickrPageUrl := "/photos/a/1" }

/-- Counterexample to C10 as stated: the record satisfies every stated
hypothesis (pattern-matching embedUrl, metacharacter-free fields), yet the
reparsed title is the alt text, not the empty title of the record, because
the parser falls back from an empty title attribute to the image alt. -/
theorem c10_counterexample_empty_title :
    photoMatch c10Bad.embedUrl = some (c10Bad.userId, c10Bad.photoId) ∧
    noHtmlMeta c10Bad.title = true ∧ noHtmlMeta c10Bad.alt = true ∧
    noHtmlMeta c10Bad.imageUrl = true ∧ noHtmlMeta c10Bad.embedUrl = true ∧
    (parseFlickrEmbed (generateFlickrEmbedDom c10Bad)).map (fun r => r.title) = some "x" ∧
    some "x" ≠ some c10Bad.title :=
  ⟨by decide, by decide, by decide, by decide, by decide, rfl, by decide⟩

/-- C9 (amended): the embed-host test is true exactly for a well-formed URL
whose hostname contains the domain string flickr.com as a substring (the
second domain test of the source, staticflickr.com, is subsumed by the
first), and false for every string the URL model rejects. -/
theorem c9_amended_host_test (s : String) :
    (parseUrlHostname s = none → isFlickrImageUrl s = false) ∧
    (∀ h, parseUrlHostname s = some h →
      (isFlickrImageUrl s = true ↔ containsStr h "flickr.com" = true)) := by
  constructor
  · intro hn
    rw [isFlickrImageUrl, hn]
  · intro h hh
    rw [isFlickrImageUrl, hh]
    constructor
    · intro ho
      rcases Bool.or_eq_true_iff.mp ho with h1 | h1
      · exact h1
      · have hsub : List.IsInfix "staticflickr.com".toList h.toList :=
          of_decide_eq_true h1
        have hsub2 : List.IsInfix "flickr.com".toList "staticflickr.com".toList := by
          decide
        exact decide_eq_true (hsub2.trans hsub)
    · intro h1
      exact Bool.or_eq_true_iff.mpr (Or.inl h1)

/-- Witness for C9 on a well-formed embed-host URL, a well-formed foreign
URL, and a string the URL constructor rejects. -/
theorem c9_amended_host_test_witness :
    isFlickrImageUrl "https://live.staticflickr.com/65535/1_2_z.jpg" = true ∧
    isFlickrImageUrl "https://images.pexels.com/photos/417074/a.jpeg" = false ∧
    isFlickrImageUrl "not a url" = false :=
  ⟨((c9_amended_host_test "https://live.staticflickr.com/65535/1_2_z.jpg").2
      "live.staticflickr.com" (by decide)).mpr (by decide),
   by
    have := ((c9_amended_host_test "https://images.pexels.com/photos/417074/a.jpeg").2
      "images.pexels.com" (by decide))
    cases hb : isFlickrImageUrl "https://images.pexels.com/photos/417074/a.jpeg" with
    | false => rfl
    | true => exact absurd (this.mp hb) (by decide),
   (c9_amended_host_test "not a url").1 (by decide)⟩

/-- Counterexample to C9 as stated: the source tests substring containment,
not a hostname suffix; a hostname that merely embeds flickr.com as an inner
label passes the source test while failing the suffix test of the claim. -/
theorem c9_counterexample_substring :
    isFlickrImageUrl "https://flickr.com.evil.example/x" = true ∧
    isFlickrImageUrlSpec "https://flickr.com.evil.example/x" = false := by
  constructor
  · decide
  · decide

/-- The attribution-resolution contract as amended: the embed-host test is
applied first and takes priority over the uploaded-image index; an embed-host
URL resolves to the photographer of its attribution-map entry when that entry
exists and carries a nonempty name, else to the fixed fallback label; any
other URL resolves to the photographer of its uploaded-image record when that
record exists and carries a nonempty name, else to the global default. -/
def resolveDisplayNameAmended (url : String) (postAttr : Option AttrMap)
    (index : List (String × ImageMetadata)) : String :=
  if isFlickrImageUrl url then
    match postAttr.bind (fun m => lookupByKey m url) with
    | some e =>
      match e.photographer with
      | some p => if p ≠ "" then p else "Flickr User"
      | none => "Flickr User"
    | none => "Flickr User"
  else
    match lookupByKey index url with
    | some r =>
      match r.photographer with
      | some p => if p ≠ "" then p else "Kate Goldenring"
      | none => "Kate Goldenring"
    | none => "Kate Goldenring"

/-- C5 (amended): the photographer resolution of the BlogPost component
agrees with the amended decision procedure on every URL, attribution map and
uploaded-image index. -/
theorem c5_amended_resolution (url : String) (postAttr : Option AttrMap)
    (index : List (String × ImageMetadata)) :
    resolvePhotographer url postAttr index =
      resolveDisplayNameAmended url postAttr index := by
  rw [resolvePhotographer, resolveDisplayNameAmended]
  by_cases hf : isFlickrImageUrl url
  · rw [if_pos hf, if_pos hf]
    cases he : postAttr.bind (fun m => lookupByKey m url) with
    | none => rfl
    | some e =>
      cases hp : e.photographer with
      | none => simp [jsOr, hp]
      | some p =>
        by_cases hpe : p = ""
        · simp [jsOr, hp, hpe]
        · simp [jsOr, hp, hpe]
  · rw [if_neg hf, if_neg hf]
    cases he : lookupByKey index url with
    | none => rfl
    | some r =>
      cases hp : r.photographer with
      | none => simp [jsOr, hp]
      | some p =>
        by_cases hpe : p = ""
        · simp [jsOr, hp, hpe]
        · simp [jsOr, hp, hpe]

/-- The embed-host image URL of the C5 counterexample. -/
def c5Url : String := "https://live.staticflickr.com/1/2_3_z.jpg"

/-- Counterexample to C5 as stated: an embed-host URL that is present in the
uploaded-image index with photographer Alice, while the owning post has no
attribution entry for it, resolves to the fallback label rather than to the
indexed photographer: the embed-host branch takes priority and never consults
the index. -/
theorem c5_counterexample_priority :
    lookupByKey [(c5Url, ImageMetadata.mk (some "Alice"))] c5Url =
      some (ImageMetadata.mk (some "Alice")) ∧
    resolvePhotographer c5Url none [(c5Url, ImageMetadata.mk (some "Alice"))] =
      "Flickr User" ∧
    "Flickr User" ≠ "Alice" := by
  refine ⟨by decide, by decide, by decide⟩

/-- C7: on a URL in the sized-variant convention base_code.ext, where the
size code and extension contain neither underscore nor dot, the derived
variants substitute the size code and preserve the rest of the URL, the small
variant carrying code m; a URL with fewer than two underscore-delimited
segments yields only the original URL. -/
theorem c7_size_variant_derivation :
    (∀ b c e : String,
      (∀ ch ∈ c.toList, ch ≠ '_') → (∀ ch ∈ c.toList, ch ≠ '.') →
      (∀ ch ∈ e.toList, ch ≠ '_') → (∀ ch ∈ e.toList, ch ≠ '.') →
      getFlickrImageSizes (b ++ "_" ++ c ++ "." ++ e) =
        FlickrImageSizes.sized (b ++ "_t." ++ e) (b ++ "_m." ++ e) (b ++ "_z." ++ e)
          (b ++ "_b." ++ e) (b ++ "_6k." ++ e) (b ++ "_h." ++ e)) ∧
    (∀ url : String, (∀ ch ∈ url.toList, ch ≠ '_') →
      getFlickrImageSizes url = FlickrImageSizes.originalOnly url) := by
  constructor
  · intro b c e hc1 hc2 he1 he2
    have htl : (b ++ "_" ++ c ++ "." ++ e).toList =
        b.toList ++ '_' :: (c.toList ++ '.' :: e.toList) := by
      simp only [toList_append]
      simp
    have hD : ∀ ch ∈ c.toList ++ '.' :: e.toList, ch ≠ '_' := by
      intro ch hch
      rcases List.mem_append.mp hch with h | h
      · exact hc1 ch h
      · rcases List.mem_cons.mp h with h | h
        · subst h; decide
        · exact he1 ch h
    have hsplit : splitOnChar '_' (b ++ "_" ++ c ++ "." ++ e).toList =
        splitOnChar '_' b.toList ++ [c.toList ++ '.' :: e.toList] := by
      rw [htl, splitOnChar_append, splitOnChar_no_sep _ _ hD]
    simp only [getFlickrImageSizes]
    rw [hsplit]
    have hlen : ¬ (splitOnChar '_' b.toList ++ [c.toList ++ '.' :: e.toList]).length < 2 := by
      have hpos : 0 < (splitOnChar '_' b.toList).length :=
        List.length_pos.mpr (splitOnChar_ne_nil '_' b.toList)
      simp only [List.length_append, List.length_cons, List.length_nil]
      omega
    rw [if_neg hlen]
    have hdrop : (splitOnChar '_' b.toList ++ [c.toList ++ '.' :: e.toList]).dropLast =
        splitOnChar '_' b.toList := by
      simp
    have hlast : (splitOnChar '_' b.toList ++ [c.toList ++ '.' :: e.toList]).getLastD [] =
        c.toList ++ '.' :: e.toList := by
      simp [List.getLastD_eq_getLast?, List.getLast?_append]
    rw [hdrop, hlast, joinSep_splitOnChar, mk_toList]
    have hdot : splitOnChar '.' (c.toList ++ '.' :: e.toList) = [c.toList, e.toList] := by
      rw [splitOnChar_append, splitOnChar_no_sep _ _ hc2, splitOnChar_no_sep _ _ he2]
      rfl
    rw [hdot]
    simp only [jsIndexGetD, List.map_cons, List.map_nil, List.get?, Option.getD_some,
      mk_toList]
  · intro url h
    simp only [getFlickrImageSizes]
    rw [splitOnChar_no_sep _ _ h]
    simp

/-- Witness for C7 at the concrete URL of the specification example. -/
theorem c7_size_variant_derivation_witness :
    ("https://host/srv/123_abc" ++ "_" ++ "z" ++ "." ++ "jpg") =
      "https://host/srv/123_abc_z.jpg" ∧
    getFlickrImageSizes ("https://host/srv/123_abc" ++ "_" ++ "z" ++ "." ++ "jpg") =
      FlickrImageSizes.sized
        ("https://host/srv/123_abc" ++ "_t." ++ "jpg")
        ("https://host/srv/123_abc" ++ "_m." ++ "jpg")
        ("https://host/srv/123_abc" ++ "_z." ++ "jpg")
        ("https://host/srv/123_abc" ++ "_b." ++ "jpg")
        ("https://host/srv/123_abc" ++ "_6k." ++ "jpg")
        ("https://host/srv/123_abc" ++ "_h." ++ "jpg") ∧
    getFlickrImageSizes "plain.jpg" = FlickrImageSizes.originalOnly "plain.jpg" :=
  ⟨rfl,
   c7_size_variant_derivation.1 "https://host/srv/123_abc" "z" "jpg"
     (by decide) (by decide) (by decide) (by decide),
   c7_size_variant_derivation.2 "plain.jpg" (by decide)⟩

/-- C3 (amended): for every app-side post and every server-assigned
completion, mapping to the storage shape, completing with the server fields
and mapping back reproduces title, category, primary image URL, secondary
images, excerpt and body; the attribution map is not carried by the mappers
and comes back absent (see the counterexample). -/
theorem c3_amended_round_trip (p : BlogFormData) (id read_time : String)
    (created_at updated_at : Nat) (created_by : Option String) (meta : Option AttrMap) :
    (mapDatabaseToApp (serverCompleted (mapAppToDatabase p) id read_time
        created_at updated_at created_by meta)).title = p.title ∧
    (mapDatabaseToApp (serverCompleted (mapAppToDatabase p) id read_time
        created_at updated_at created_by meta)).category = p.category ∧
    (mapDatabaseToApp (serverCompleted (mapAppToDatabase p) id read_time
        created_at updated_at created_by meta)).imageUrl = p.imageUrl ∧
    (mapDatabaseToApp (serverCompleted (mapAppToDatabase p) id read_time
        created_at updated_at created_by meta)).images = p.images ∧
    (mapDatabaseToApp (serverCompleted (mapAppToDatabase p) id read_time
        created_at updated_at created_by meta)).excerpt = p.excerpt ∧
    (mapDatabaseToApp (serverCompleted (mapAppToDatabase p) id read_time
        created_at updated_at created_by meta)).content = p.content :=
  ⟨rfl, rfl, rfl, rfl, rfl, rfl⟩

/-- An app-side post carrying an attribution map, for the C3 counterexample. -/
def c3Post : BlogFormData :=
  { title := "t", category := "hiking", imageUrl := "u", images := ["v"],
    excerpt := "e", content := "body",
    imageMetadata := some [("u", AttrEntry.mk (some "Alice"))] }

/-- Counterexample to C3 as stated: the round trip erases the attribution
map, a field that is not server-assigned, so reproduction cannot hold for
every field other than the server-assigned ones. -/
theorem c3_counterexample_metadata_lost :
    c3Post.imageMetadata = some [("u", AttrEntry.mk (some "Alice"))] ∧
    (mapDatabaseToApp (serverCompleted (mapAppToDatabase c3Post) "p1" "1 min read"
        0 0 none (some []))).imageMetadata = none ∧
    (mapDatabaseToApp (serverCompleted (mapAppToDatabase c3Post) "p1" "1 min read"
        0 0 none (some []))).imageMetadata ≠ c3Post.imageMetadata :=
  ⟨rfl, rfl, by decide⟩

/-- A stored row carrying an attribution map, for C4. -/
def c4Row : DatabaseBlogPost :=
  { id := "p1", title := "t", category := "hiking",
    image_url := "https://img.example/a.jpg",
    images := some ["https://img.example/b.jpg"],
    excerpt := "e", content := "body", read_time := "1 min read",
    created_at := 1710500000000, updated_at := 1710500000000, created_by := none,
    image_metadata := some [("https://img.example/a.jpg", AttrEntry.mk (some "Alice"))] }

/-- C4: mapDatabaseToApp performs the renaming, the null-defense on the
images column and the UTC date derivation, but its returned object carries no
imageMetadata key at all, so the attribution map of the stored row is dropped
rather than copied, and an absent map does not come back as an empty map. -/
theorem c4_attribution_map_dropped :
    c4Row.image_metadata =
      some [("https://img.example/a.jpg", AttrEntry.mk (some "Alice"))] ∧
    mapDatabaseToApp c4Row =
      { id := "p1", title := "t", category := "hiking",
        imageUrl := "https://img.example/a.jpg",
        images := ["https://img.example/b.jpg"],
        excerpt := "e", content := "body", date := "2024-03-15",
        readTime := "1 min read", imageMetadata := none } ∧
    (mapDatabaseToApp c4Row).imageMetadata ≠ c4Row.image_metadata :=
  ⟨rfl, rfl, by decide⟩

/-- A 401-word body whose words are separated by newlines. -/
def c6Body : String := String.mk (joinSep '\n' (List.replicate 401 ['w']))

theorem dropWhile_all_false {p : Char → Bool} :
    ∀ l : List Char, (∀ c ∈ l, p c = false) → l.dropWhile p = l := by
  intro l h
  cases l with
  | nil => rfl
  | cons c cs =>
    rw [List.dropWhile_cons, h c (List.mem_cons_self c cs)]
    simp

theorem pgTrim_no_space (s : String) (h : ∀ c ∈ s.toList, c ≠ ' ') : pgTrim s = s := by
  rw [pgTrim]
  have h1 : ∀ c ∈ s.toList, (fun c => decide (c = ' ')) c = false := fun c hc =>
    decide_eq_false (h c hc)
  have h2 : ∀ c ∈ s.toList.reverse, (fun c => decide (c = ' ')) c = false := fun c hc =>
    decide_eq_false (h c (List.mem_reverse.mp hc))
  rw [dropWhile_all_false _ h1, dropWhile_all_false _ h2, List.reverse_reverse, mk_toList]

theorem calculate_read_time_single_field (s : String) (h0 : s ≠ "")
    (h : ∀ c ∈ s.toList, c ≠ ' ') : calculate_read_time s = "1 min read" := by
  rw [calculate_read_time, pgTrim_no_space s h, stringToArraySpace, if_neg h0,
    splitOnChar_no_sep _ _ h]
  have h1 : arrayLength1 (List.map String.mk [s.toList]) = some 1 := rfl
  rw [h1]
  decide

theorem splitOnChar_joinSep (sep : Char) (gs : List (List Char)) (hgs : gs ≠ [])
    (h : ∀ g ∈ gs, ∀ c ∈ g, c ≠ sep) : splitOnChar sep (joinSep sep gs) = gs := by
  induction gs with
  | nil => exact absurd rfl hgs
  | cons g gs ih =>
    cases gs with
    | nil =>
      show splitOnChar sep g = [g]
      exact splitOnChar_no_sep sep g (h g (List.mem_cons_self g []))
    | cons g2 gs2 =>
      have hj : joinSep sep (g :: g2 :: gs2) = g ++ sep :: joinSep sep (g2 :: gs2) := rfl
      rw [hj, splitOnChar_append,
        splitOnChar_no_sep sep g (h g (List.mem_cons_self g (g2 :: gs2))),
        ih (by simp) (fun g0 hg0 => h g0 (List.mem_cons_of_mem g hg0))]
      rfl

theorem mem_joinSep (sep : Char) (gs : List (List Char)) (c : Char)
    (hc : c ∈ joinSep sep gs) : c = sep ∨ ∃ g ∈ gs, c ∈ g := by
  induction gs with
  | nil => simp [joinSep] at hc
  | cons g gs ih =>
    cases gs with
    | nil =>
      right
      exact ⟨g, List.mem_cons_self g [], hc⟩
    | cons g2 gs2 =>
      rw [show joinSep sep (g :: g2 :: gs2) = g ++ sep :: joinSep sep (g2 :: gs2)
        from rfl] at hc
      rcases List.mem_append.mp hc with hm | hm
      · right; exact ⟨g, List.mem_cons_self g (g2 :: gs2), hm⟩
      · rcases List.mem_cons.mp hm with hm2 | hm2
        · exact Or.inl hm2
        · rcases ih hm2 with hm3 | ⟨g0, hg0, hcg0⟩
          · exact Or.inl hm3
          · right; exact ⟨g0, List.mem_cons_of_mem g hg0, hcg0⟩

/-- C6: calculate_read_time splits the trimmed body on single spaces only,
although its own comment says it counts words split by whitespace; a 401-word
newline-separated body therefore counts as one field and yields 1 min read,
where the claim (and the comment) require 3 min read. -/
theorem c6_word_count_split_bug :
    splitOnChar '\n' c6Body.toList = List.replicate 401 ['w'] ∧
    calculate_read_time c6Body = "1 min read" ∧
    calculate_read_time c6Body ≠ "3 min read" := by
  have htl : c6Body.toList = joinSep '\n' (List.replicate 401 ['w']) := rfl
  have hsplit : splitOnChar '\n' c6Body.toList = List.replicate 401 ['w'] := by
    rw [htl]
    refine splitOnChar_joinSep '\n' _ ?_ ?_
    · intro hcon
      have hrep := congrArg List.length hcon
      rw [List.length_replicate] at hrep
      exact absurd hrep (by decide)
    intro g hg c hc
    rw [List.eq_of_mem_replicate hg] at hc
    have hcw : c = 'w' := List.mem_singleton.mp hc
    subst hcw
    decide
  have hne : c6Body ≠ "" := by
    intro hcon
    have h1 : splitOnChar '\n' c6Body.toList = [[]] := by
      rw [hcon]
      rfl
    rw [h1] at hsplit
    have hlen := congrArg List.length hsplit
    rw [List.length_replicate] at hlen
    exact absurd hlen (by decide)
  have hnospace : ∀ c ∈ c6Body.toList, c ≠ ' ' := by
    intro c hc
    rw [htl] at hc
    rcases mem_joinSep '\n' _ c hc with hm | ⟨g, hg, hcg⟩
    · subst hm; decide
    · rw [List.eq_of_mem_replicate hg] at hcg
      have hcw : c = 'w' := List.mem_singleton.mp hcg
      subst hcw; decide
  refine ⟨hsplit, calculate_read_time_single_field c6Body hne hnospace, ?_⟩
  rw [calculate_read_time_single_field c6Body hne hnospace]
  decide

end Spec2Proof
